import Mathlib

/-!
Verification development for `mne/fiff/proj.py`: signal-space projection
(SSP) records.  The reader (`read_proj`), writer (`write_proj`), projector
builder (`make_projector`) and spatial-vector estimator
(`compute_spatial_vectors`) are embedded shallowly.

Modelling conventions:
* IEEE doubles are modelled exactly as rationals (`ℚ`); floating-point
  rounding is out of scope of the claims treated here.
* A matrix is a list of rows (`Mat`), except where noted: the vector
  accumulator of `make_projector` and the left-singular-vector output of
  the SVD are held as lists of columns, which is how the source indexes
  them (`vecs[:, j]`, `U[:, :nproj]`, `enumerate(U.T)`).
* `math.sqrt` and `scipy.linalg.svd` are external library routines; they
  enter the embedding as explicit function parameters (`sqrtF`, `svdF`).
  `svdF` maps the input matrix to the pair (columns of `U`, singular
  values `S`); the claims never depend on a particular decomposition,
  only on how the code consumes it.
* The tag/tree accessor (`find_tag`, `dir_tree_find` from `tag.py`,
  `tree.py`) and the tag-write primitives (`write.py`) are external
  collaborators not present in the repository slice; a projection block
  is modelled from the spec as the record of tag payloads the accessor
  can return for exactly the tag kinds the reader queries and the writer
  emits.
-/

namespace MneProj

/-- Matrix of rationals, stored as a list of rows unless noted otherwise. -/
abbrev Mat : Type := List (List ℚ)

/-- Column count of a matrix payload, numpy's `shape[1]` for the
well-formed (rectangular) matrices a FIF matrix tag carries. -/
def matCols (m : Mat) : Nat := (m.headD []).length

/-- The `data` dict of a projection item: a named matrix
(`nrow`, `ncol`, `row_names`, `col_names`, `data`). -/
structure NamedMatrix where
  nrow : Nat
  ncol : Nat
  row_names : Option (List String)
  col_names : List String
  data : Mat
deriving DecidableEq, Repr

/-- One projection item as built by `read_proj` / consumed by
`make_projector` and `write_proj`. -/
structure Proj where
  kind : Int
  active : Bool
  desc : String
  data : NamedMatrix
deriving DecidableEq, Repr

/-- Error taxonomy of the projection code: every `raise ValueError` site,
plus the `NameError` that Python raises when `global_nchan` is referenced
without ever being assigned. -/
inductive ProjError where
  | invalidChannelSet : ProjError
  | duplicateChannel : Nat → ProjError
  | missingField : String → ProjError
  | shapeMismatch : ProjError
  | undefinedGlobalNchan : ProjError
deriving DecidableEq, Repr

/-- Decidable equality of `Except` results, so that runs of the embedded
functions on concrete inputs can be checked by `decide`. -/
instance {ε α : Type} [DecidableEq ε] [DecidableEq α] :
    DecidableEq (Except ε α)
  | .error e, .error f =>
    if h : e = f then .isTrue (by rw [h]) else .isFalse (by simp [h])
  | .error _, .ok _ => .isFalse (fun hc => Except.noConfusion hc)
  | .ok _, .error _ => .isFalse (fun hc => Except.noConfusion hc)
  | .ok a, .ok b =>
    if h : a = b then .isTrue (by rw [h]) else .isFalse (by simp [h])

/-- Duplicate test of `make_projector`:
`len(col_names) != len(np.unique(col_names))`. -/
def hasDup (l : List String) : Bool := decide (l.dedup.length ≠ l.length)

/-- The columns that one active item contributes to the accumulator
`vecs`, before normalization: for row `v` of the item's data, entry `c`
of the column is the item's value for channel `ch_names[c]` when that
name occurs in the item's `col_names` (first occurrence, as
`list.index`), and `0` otherwise (the allocation is zero-initialized and
unmatched entries are never written). -/
def scatterCols (p : Proj) (ch_names : List String) : Mat :=
  (List.range p.data.nrow).map (fun v =>
    ch_names.map (fun name =>
      match p.data.col_names.indexOf? name with
      | some j => (p.data.data.getD v []).getD j 0
      | none => 0))

/-- Squared Euclidean norm of a column. -/
def colNormSq (col : List ℚ) : ℚ := (col.map (fun x => x * x)).sum

/-- Per-column rescaling step of `make_projector`:
`psize = sqrt(sum(col^2)); if psize > 0: col /= psize; nonzero += 1`.
Returns the (possibly rescaled) column and whether it counted as
nonzero. -/
def normalizeCol (sqrtF : ℚ → ℚ) (col : List ℚ) : List ℚ × Bool :=
  let psize := sqrtF (colNormSq col)
  if 0 < psize then (col.map (fun x => x / psize), true) else (col, false)

/-- The item loop of `make_projector`: walks the item list with its
enumeration index `k`, skips idle items, rejects an active item whose
channel-name list has duplicates, and otherwise scatters and normalizes
its columns.  Returns the accumulated columns of `vecs` (in item order)
together with the `nonzero` counter. -/
def buildVecsAux (sqrtF : ℚ → ℚ) (ch_names : List String) :
    Nat → List Proj → Except ProjError (Mat × Nat)
  | _, [] => .ok ([], 0)
  | k, p :: ps =>
    if p.active then
      if hasDup p.data.col_names then .error (.duplicateChannel k)
      else
        let normed := (scatterCols p ch_names).map (normalizeCol sqrtF)
        match buildVecsAux sqrtF ch_names (k + 1) ps with
        | .error e => .error e
        | .ok (rest, nonzero) =>
          .ok (normed.map Prod.fst ++ rest,
               (normed.filter (fun c => c.2)).length + nonzero)
    else buildVecsAux sqrtF ch_names (k + 1) ps

/-- The `n × n` identity matrix `np.eye(nchan, nchan)`. -/
def eye (n : Nat) : Mat :=
  (List.range n).map (fun i =>
    (List.range n).map (fun j => if i = j then (1 : ℚ) else 0))

/-- The result matrix `eye(nchan) - U · Uᵗ`, with `U` given by its
columns: entry `(i, j)` is `δᵢⱼ - Σ_u u[i]·u[j]`. -/
def projMinusUUt (n : Nat) (U : Mat) : Mat :=
  (List.range n).map (fun i =>
    (List.range n).map (fun j =>
      (if i = j then (1 : ℚ) else 0) -
        (U.map (fun u => u.getD i 0 * u.getD j 0)).sum))

/-- `make_projector(projs, ch_names, bads=[])`.  Result on success is the
triple `(proj, nproj, U)` the source returns, with `U` as a list of
columns (`[]` in the trivial cases, matching the Python literal `[]`).
`sqrtF` and `svdF` stand for `math.sqrt` and `scipy.linalg.svd`. -/
def make_projector (sqrtF : ℚ → ℚ) (svdF : Mat → Mat × List ℚ)
    (projs : Option (List Proj)) (ch_names : List String)
    (bads : List String) : Except ProjError (Mat × Nat × Mat) :=
  let nchan := ch_names.length
  if nchan = 0 then .error .invalidChannelSet
  else
    match projs with
    | none => .ok (eye nchan, 0, [])
    | some l =>
      if (l.filter (fun p => p.active)).length = 0 then .ok (eye nchan, 0, [])
      else
        match buildVecsAux sqrtF ch_names 0 l with
        | .error e => .error e
        | .ok (cols, nonzero) =>
          if nonzero = 0 then .ok (eye nchan, 0, [])
          else
            let US := svdF cols
            let nproj := (US.2.filter (fun si => 1 / 100 < si / US.2.headD 0)).length
            let Utrunc := US.1.take nproj
            .ok (projMinusUUt nchan Utrunc, nproj, Utrunc)

/-- Splitting a character list at every `':'`, accumulating the current
field in reverse: the translation of Python's `str.split(':')` (for this
single-character separator, `"".split(':')` is `[""]`, and empty fields
between adjacent colons are kept). -/
def splitColonAux : List Char → List Char → List String
  | [], acc => [String.mk acc.reverse]
  | c :: cs, acc =>
    if c = ':' then String.mk acc.reverse :: splitColonAux cs []
    else splitColonAux cs (c :: acc)

/-- `tag.data.split(':')` of the reader. -/
def splitColon (s : String) : List String := splitColonAux s.data []

/-- Modelled from the spec: the external `write_name_list` primitive
emits the names joined by colons. -/
def joinColon : List String → String
  | [] => ""
  | [s] => s
  | s :: rest => s ++ ":" ++ joinColon rest

/-- Modelled from the spec: `FIFF.FIFFV_PROJ_ITEM_FIELD`, the reserved
"field"-type item-kind code from the external `constants.py` (only its
identity matters: the writer emits an extra zero-valued time tag for this
kind). -/
def FIFFV_PROJ_ITEM_FIELD : Int := 4

/-- Modelled from the spec: one `FIFFB_PROJ_ITEM` sub-block, given as the
payloads that `find_tag` returns for the tag kinds the reader queries and
the writer emits — `none` means the tag is absent.  The `active` tag
carries an integer payload when written, but its mere presence is what
the reader tests. -/
structure ProjItemBlock where
  nchan : Option Nat
  desc : Option String
  name : Option String
  kind : Option Int
  nvec : Option Nat
  ch_list : Option String
  vectors : Option Mat
  active : Option Int
  time : Option ℚ
deriving DecidableEq, Repr

/-- Modelled from the spec: the `FIFFB_PROJ` block — an optional global
channel-count tag followed by the item sub-blocks in order. -/
structure ProjBlock where
  nchan : Option Nat
  items : List ProjItemBlock
deriving DecidableEq, Repr

/-- Body of the item loop of `read_proj`, for one item sub-block, given
the block-level `global_nchan` (which Python leaves undefined when the
block has no channel-count tag: referencing it then raises `NameError`,
here `undefinedGlobalNchan`).  Field resolution follows the source
order: nchan, description (with name fallback), kind, vector count,
channel-name list (colon-split), data, active (presence test), then the
shape validation `data.shape[1] == len(names)`. -/
def readItem (global_nchan : Option Nat) (it : ProjItemBlock) :
    Except ProjError Proj :=
  match it.nchan.orElse (fun _ => global_nchan) with
  | none => .error .undefinedGlobalNchan
  | some nchan =>
    match it.desc.orElse (fun _ => it.name) with
    | none => .error (.missingField "description")
    | some desc =>
      match it.kind with
      | none => .error (.missingField "kind")
      | some kind =>
        match it.nvec with
        | none => .error (.missingField "vector_count")
        | some nvec =>
          match it.ch_list with
          | none => .error (.missingField "channel_names")
          | some chl =>
            match it.vectors with
            | none => .error (.missingField "data")
            | some data =>
              let names := splitColon chl
              let active := it.active.isSome
              if matCols data ≠ names.length then .error .shapeMismatch
              else .ok ⟨kind, active, desc,
                        ⟨nvec, nchan, none, names, data⟩⟩

/-- Item loop of `read_proj`: items are read in order, appending to
`projdata`; the first failure aborts the whole call. -/
def readItems (global_nchan : Option Nat) :
    List ProjItemBlock → Except ProjError (List Proj)
  | [] => .ok []
  | it :: its =>
    match readItem global_nchan it with
    | .error e => .error e
    | .ok p =>
      match readItems global_nchan its with
      | .error e => .error e
      | .ok ps => .ok (p :: ps)

/-- `read_proj(fid, node)`: `none` models a tree with no `FIFFB_PROJ`
block (result `[]`, not an error); otherwise every item sub-block is
read in order.  The diagnostic `print` lines are side effects outside
the embedding. -/
def read_proj (node : Option ProjBlock) : Except ProjError (List Proj) :=
  match node with
  | none => .ok []
  | some b => readItems b.nchan b.items

/-- The tag writes `write_proj` performs for one item, collected into the
block record the reader will see: the description goes out under the
*name* tag; kind; a zero time tag only for the field-type kind; channel
count (= `ncol`); vector count (= `nrow`); the active flag as an integer
payload; the colon-joined channel-name list; the data matrix. -/
def writeItem (p : Proj) : ProjItemBlock :=
  { nchan := some p.data.ncol
    desc := none
    name := some p.desc
    kind := some p.kind
    nvec := some p.data.nrow
    ch_list := some (joinColon p.data.col_names)
    vectors := some p.data.data
    active := some (if p.active then 1 else 0)
    time := if p.kind = FIFFV_PROJ_ITEM_FIELD then some 0 else none }

/-- `write_proj(fid, projs)`: one `FIFFB_PROJ` block holding one item
sub-block per item, in list order; no block-level channel-count tag is
written. -/
def write_proj (projs : List Proj) : ProjBlock :=
  { nchan := none, items := projs.map writeItem }

/-- Flattening step of `compute_spatial_vectors`:
`data.swapaxes(0, 1).reshape(data.shape[1], -1)` — row `c` of the result
is the concatenation, over epochs, of channel `c`'s samples.
`epochsData` is indexed `[epoch][channel][sample]`. -/
def flattenEpochs (epochsData : List Mat) : Mat :=
  (List.range (epochsData.headD []).length).map (fun c =>
    (epochsData.map (fun e => e.getD c [])).flatten)

/-- Row selection `data[ind]`. -/
def pickRows (m : Mat) (ind : List Nat) : Mat :=
  ind.map (fun i => m.getD i [])

/-- One pass of the group loop of `compute_spatial_vectors`: `continue`
when the requested count is zero, otherwise the first `n` left singular
vectors of the group's rows become single-row items, each `active`, of
kind `1`, described `'MEG %s' % k` with `k` the per-group enumeration
index, with the group's channel names as `col_names`. -/
def groupProjs (svdF : Mat → Mat × List ℚ) (n : Nat) (dataFlat : Mat)
    (ind : List Nat) (names : List String) : List Proj :=
  if n = 0 then []
  else
    let U := (svdF (pickRows dataFlat ind)).1.take n
    U.enum.map (fun ku =>
      ⟨1, true, "MEG " ++ toString ku.1,
       ⟨1, ku.2.length, none, names, [ku.2]⟩⟩)

/-- `compute_spatial_vectors(epochs, n_grad, n_mag, n_eeg)`.  The epochs
object is represented by its data cube and channel names; the external
`pick_types` channel selections enter as the three index lists.  A
positive request for a group with no channels is forced to zero; the
groups are processed in the fixed order grad, mag, eeg. -/
def compute_spatial_vectors (svdF : Mat → Mat × List ℚ)
    (epochsData : List Mat) (ch_names : List String)
    (grad_ind mag_ind eeg_ind : List Nat)
    (n_grad n_mag n_eeg : Nat) : List Proj :=
  let dataF := flattenEpochs epochsData
  let ng := if 0 < n_grad ∧ grad_ind.length = 0 then 0 else n_grad
  let nm := if 0 < n_mag ∧ mag_ind.length = 0 then 0 else n_mag
  let ne := if 0 < n_eeg ∧ eeg_ind.length = 0 then 0 else n_eeg
  let grad_names := grad_ind.map (fun k => ch_names.getD k "")
  let mag_names := mag_ind.map (fun k => ch_names.getD k "")
  let eeg_names := eeg_ind.map (fun k => ch_names.getD k "")
  groupProjs svdF ng dataF grad_ind grad_names ++
    groupProjs svdF nm dataF mag_ind mag_names ++
      groupProjs svdF ne dataF eeg_ind eeg_names

/-- Economy-size SVD well-formedness, the contract `scipy.linalg.svd`
with `full_matrices=False` satisfies as far as the claims consume it:
`U` has `min(rows, cols)` columns, each of the input's row count,
pairwise orthonormal; the singular values are as many, nonnegative and
in descending order.  (The reconstruction `A = U·diag(S)·Vᵗ` also holds
for the real routine but involves `V`, which the code discards.) -/
def isEconomySVD (A : Mat) (U : Mat) (S : List ℚ) : Prop :=
  U.length = min A.length (matCols A) ∧
  S.length = U.length ∧
  (∀ u ∈ U, u.length = A.length) ∧
  (∀ i ∈ List.range U.length, ∀ j ∈ List.range U.length,
    ((U.getD i []).zip (U.getD j [])).foldl (fun a xy => a + xy.1 * xy.2) 0 =
      if i = j then 1 else 0) ∧
  S.Pairwise (fun a b => b ≤ a) ∧ (∀ s ∈ S, 0 ≤ s)

/-! Concrete inputs for witnesses and counterexamples. -/

/-- Identity stand-in for `math.sqrt` in runs whose only sqrt argument is
`0` (it satisfies `¬ 0 < sqrtF 0`). -/
def idSqrt : ℚ → ℚ := fun q => q

/-- Trivial SVD stand-in for runs that never reach the SVD. -/
def noSvd : Mat → Mat × List ℚ := fun m => (m, [])

/-- The concrete case of the spec's §8: one active item over channels
`A, B` with the single row `(3, 4)`, of Euclidean norm `5`. -/
def specItem : Proj := ⟨1, true, "PCA-v1", ⟨1, 2, none, ["A", "B"], [[3, 4]]⟩⟩

/-- Square root evaluated on the one value that run produces
(`colNormSq = 25`). -/
def sqrt25 : ℚ → ℚ := fun _ => 5

/-- SVD of the single normalized column `(3/5, 4/5, 0)`: that unit
column itself, singular value `1`. -/
def svdSpec : Mat → Mat × List ℚ := fun _ => ([[3/5, 4/5, 0]], [1])

/-- An active item whose channel-name list repeats `B` and meets the
target channel set `["A"]` nowhere, so its accumulated column is zero. -/
def dupZeroItem : Proj := ⟨1, true, "dup", ⟨1, 2, none, ["B", "B"], [[1, 1]]⟩⟩

/-- An idle (inactive) item that satisfies every Reader validation rule. -/
def idleItem : Proj := ⟨1, false, "idle one", ⟨1, 1, none, ["A"], [[1]]⟩⟩

/-- An item block whose `nchan` tag (`5`) disagrees with its three
channel names, while the data matrix has the matching three columns. -/
def nchanSkewBlock : ProjBlock :=
  ⟨none, [⟨some 5, some "skew", none, some 1, some 1, some "a:b:c",
           some [[1, 2, 3]], none, none⟩]⟩

/-- An item block carrying no channel-count tag at all. -/
def noNchanItemBlock : ProjItemBlock :=
  ⟨none, some "d", none, some 1, some 1, some "a", some [[1]], none, none⟩

/-- A complete item block whose description comes from the name tag. -/
def namedItemBlock : ProjItemBlock :=
  ⟨some 1, none, some "from name", some 1, some 1, some "a",
   some [[1]], some 1, none⟩

/-- SVD of the `1 × 1` matrix `[[1]]`: `U = [[1]]`, `S = [1]`. -/
def svdOne : Mat → Mat × List ℚ := fun _ => ([[1]], [1])

/-- An active item of the reserved "field" kind (which makes the writer
emit the extra time tag), valid for the Reader. -/
def rtItem : Proj := ⟨4, true, "field one", ⟨1, 2, none, ["A", "B"], [[1, 2]]⟩⟩

/-! Theorems. -/

/-- C5: with an empty target channel-name list, `make_projector` fails
with `InvalidChannelSet` for every item list — `none`, empty, active or
idle alike — before any item is examined (the check precedes the item
scan in the source). -/
theorem make_projector_empty_channel_set (sqrtF : ℚ → ℚ)
    (svdF : Mat → Mat × List ℚ) (projs : Option (List Proj))
    (bads : List String) :
    make_projector sqrtF svdF projs [] bads = .error .invalidChannelSet := rfl

/-- C8: the bad-channel argument of `make_projector` does not influence
the result at all: any two calls agreeing on the item list and the
target channel names return identical matrix, rank and basis, whatever
the two bad-channel sets are. -/
theorem make_projector_ignores_bads (sqrtF : ℚ → ℚ)
    (svdF : Mat → Mat × List ℚ) (projs : Option (List Proj))
    (ch_names bads₁ bads₂ : List String) :
    make_projector sqrtF svdF projs ch_names bads₁ =
      make_projector sqrtF svdF projs ch_names bads₂ := rfl

/-- C1: on the non-degenerate path — nonempty channel set, at least one
active item, accumulation succeeding with a nonzero column — the result
is computed from the reduced SVD `(U, S)` of the accumulated matrix:
`rank` is the number of singular values with `S[i]/S[0] > 0.01`, `basis`
is the first `rank` left singular vectors, and `matrix = I - U·Uᵗ`. -/
theorem make_projector_svd_path (sqrtF : ℚ → ℚ)
    (svdF : Mat → Mat × List ℚ) (l : List Proj)
    (ch_names bads : List String) (cols : Mat) (nonzero : Nat)
    (hch : ch_names ≠ [])
    (hact : ∃ p ∈ l, p.active = true)
    (hvecs : buildVecsAux sqrtF ch_names 0 l = .ok (cols, nonzero))
    (hnz : nonzero ≠ 0) :
    make_projector sqrtF svdF (some l) ch_names bads =
      .ok (projMinusUUt ch_names.length
             ((svdF cols).1.take
                (((svdF cols).2.filter
                    (fun si => 1 / 100 < si / (svdF cols).2.headD 0)).length)),
           ((svdF cols).2.filter
               (fun si => 1 / 100 < si / (svdF cols).2.headD 0)).length,
           (svdF cols).1.take
             (((svdF cols).2.filter
                 (fun si => 1 / 100 < si / (svdF cols).2.headD 0)).length)) := by
  have h0 : ¬ ch_names.length = 0 := by
    simpa [List.length_eq_zero] using hch
  obtain ⟨p, hp, hpa⟩ := hact
  have hf : ¬ (l.filter (fun p => p.active)).length = 0 := by
    intro h
    rw [List.length_eq_zero] at h
    have : p ∈ l.filter (fun p => p.active) :=
      List.mem_filter.mpr ⟨hp, hpa⟩
    simp [h] at this
  simp only [make_projector, if_neg h0, if_neg hf, hvecs, if_neg hnz]

/-- Witness for C1, the spec's §8 concrete case: channels `[A, B, C]`,
one active item over `[A, B]` with row `(3, 4)`; the normalized column
is `(3/5, 4/5, 0)` and `I - v·vᵗ` comes out exactly. -/
theorem make_projector_svd_path_witness :
    make_projector sqrt25 svdSpec (some [specItem]) ["A", "B", "C"] [] =
      .ok ([[16/25, -12/25, 0], [-12/25, 9/25, 0], [0, 0, 1]], 1,
           [[3/5, 4/5, 0]]) :=
  (make_projector_svd_path sqrt25 svdSpec [specItem] ["A", "B", "C"] []
      [[3/5, 4/5, 0]] 1 (by simp)
      ⟨specItem, List.mem_singleton.mpr rfl, rfl⟩
      (by
        norm_num [buildVecsAux, specItem, scatterCols, colNormSq,
          normalizeCol, sqrt25, hasDup, List.indexOf?_cons,
          List.range_succ, List.dedup_cons_of_not_mem]
        simp)
      (by decide)).trans
    (by norm_num [svdSpec, projMinusUUt, List.range_succ])

/-- Helper: an item list containing an active item with duplicate
channel names makes the accumulation loop fail with `DuplicateChannel`
at the index (counted from `k0`) of the first such item. -/
theorem buildVecsAux_dup_error (sqrtF : ℚ → ℚ) (ch_names : List String) :
    ∀ (k0 : Nat) (l : List Proj),
      (∃ p ∈ l, p.active = true ∧ hasDup p.data.col_names = true) →
      ∃ k p, l[k]? = some p ∧ p.active = true ∧
        hasDup p.data.col_names = true ∧
        buildVecsAux sqrtF ch_names k0 l = .error (.duplicateChannel (k0 + k))
  | _, [], h => absurd h (by simp)
  | k0, p :: ps, h => by
    by_cases ha : p.active = true
    · by_cases hd : hasDup p.data.col_names = true
      · exact ⟨0, p, by simp, ha, hd, by simp [buildVecsAux, ha, hd]⟩
      · have htail : ∃ q ∈ ps, q.active = true ∧ hasDup q.data.col_names = true := by
          rcases h with ⟨q, hq, hqa, hqd⟩
          rcases List.mem_cons.mp hq with rfl | hq2
          · exact absurd hqd hd
          · exact ⟨q, hq2, hqa, hqd⟩
        obtain ⟨k, q, hget, hqa, hqd, heq⟩ :=
          buildVecsAux_dup_error sqrtF ch_names (k0 + 1) ps htail
        refine ⟨k + 1, q, by simpa using hget, hqa, hqd, ?_⟩
        have hk : k0 + 1 + k = k0 + (k + 1) := by omega
        simp only [buildVecsAux, if_pos ha, if_neg hd, heq, hk]
    · have htail : ∃ q ∈ ps, q.active = true ∧ hasDup q.data.col_names = true := by
        rcases h with ⟨q, hq, hqa, hqd⟩
        rcases List.mem_cons.mp hq with rfl | hq2
        · exact absurd hqa ha
        · exact ⟨q, hq2, hqa, hqd⟩
      obtain ⟨k, q, hget, hqa, hqd, heq⟩ :=
        buildVecsAux_dup_error sqrtF ch_names (k0 + 1) ps htail
      refine ⟨k + 1, q, by simpa using hget, hqa, hqd, ?_⟩
      have hk : k0 + 1 + k = k0 + (k + 1) := by omega
      simp only [buildVecsAux, if_neg ha, heq, hk]

/-- C4: with a nonempty target channel set (an empty one fails earlier
with `InvalidChannelSet`, as C5 pins), an item list containing an active
item with a duplicated channel name always makes `make_projector` fail
with `DuplicateChannel` carrying the index of the first such item —
duplicates are never silently removed. -/
theorem make_projector_duplicate_channel (sqrtF : ℚ → ℚ)
    (svdF : Mat → Mat × List ℚ) (l : List Proj)
    (ch_names bads : List String)
    (hch : ch_names ≠ [])
    (hdup : ∃ p ∈ l, p.active = true ∧ hasDup p.data.col_names = true) :
    ∃ k p, l[k]? = some p ∧ p.active = true ∧
      hasDup p.data.col_names = true ∧
      make_projector sqrtF svdF (some l) ch_names bads =
        .error (.duplicateChannel k) := by
  have h0 : ¬ ch_names.length = 0 := by
    simpa [List.length_eq_zero] using hch
  have hf : ¬ (l.filter (fun p => p.active)).length = 0 := by
    rcases hdup with ⟨q, hq, hqa, _⟩
    intro h
    rw [List.length_eq_zero] at h
    have : q ∈ l.filter (fun p => p.active) := List.mem_filter.mpr ⟨hq, hqa⟩
    simp [h] at this
  obtain ⟨k, p, hget, hpa, hpd, heq⟩ :=
    buildVecsAux_dup_error sqrtF ch_names 0 l hdup
  refine ⟨k, p, hget, hpa, hpd, ?_⟩
  simp only [make_projector, if_neg h0, if_neg hf, heq, Nat.zero_add]

/-- Witness for C4: one active item listing channel `B` twice. -/
theorem make_projector_duplicate_channel_witness :
    ∃ k p, [dupZeroItem][k]? = some p ∧ p.active = true ∧
      hasDup p.data.col_names = true ∧
      make_projector idSqrt noSvd (some [dupZeroItem]) ["A"] [] =
        .error (.duplicateChannel k) :=
  make_projector_duplicate_channel idSqrt noSvd [dupZeroItem] ["A"] []
    (by simp)
    ⟨dupZeroItem, List.mem_singleton.mpr rfl, rfl, by decide⟩

/-- Helper: when every active item passes the duplicate check and every
column any active item scatters has zero squared norm, the accumulation
loop succeeds with a zero `nonzero` count (no column is normalized,
given that the square root of `0` is not positive). -/
theorem buildVecsAux_all_zero (sqrtF : ℚ → ℚ) (ch_names : List String)
    (hz : ¬ 0 < sqrtF 0) :
    ∀ (k0 : Nat) (l : List Proj),
      (∀ p ∈ l, p.active = true → hasDup p.data.col_names = false) →
      (∀ p ∈ l, p.active = true →
        ∀ col ∈ scatterCols p ch_names, colNormSq col = 0) →
      ∃ cols, buildVecsAux sqrtF ch_names k0 l = .ok (cols, 0)
  | _, [], _, _ => ⟨[], rfl⟩
  | k0, p :: ps, h1, h2 => by
    obtain ⟨cols, hcols⟩ := buildVecsAux_all_zero sqrtF ch_names hz (k0 + 1) ps
      (fun q hq => h1 q (List.mem_cons_of_mem _ hq))
      (fun q hq => h2 q (List.mem_cons_of_mem _ hq))
    by_cases ha : p.active = true
    · have hd : hasDup p.data.col_names = false := h1 p (List.mem_cons_self p ps) ha
      have hcz : ∀ col ∈ scatterCols p ch_names, colNormSq col = 0 :=
        h2 p (List.mem_cons_self p ps) ha
      have hfilter :
          ((scatterCols p ch_names).map (normalizeCol sqrtF)).filter
            (fun c => c.2) = [] := by
        apply List.filter_eq_nil_iff.mpr
        intro c hc
        rcases List.mem_map.mp hc with ⟨col, hcol, rfl⟩
        simp [normalizeCol, hcz col hcol, hz]
      refine ⟨((scatterCols p ch_names).map (normalizeCol sqrtF)).map Prod.fst ++
        cols, ?_⟩
      simp only [buildVecsAux, if_pos ha, hd, Bool.false_eq_true, if_false,
        hcols, hfilter]
      simp
    · exact ⟨cols, by simp [buildVecsAux, ha, hcols]⟩

/-- C2 (amended): with a nonempty channel set and no active item
carrying duplicate channel names, `make_projector` returns the identity,
rank `0` and an empty basis — not an error — whenever the item list is
absent, no item is active, or every column any active item contributes
has zero Euclidean norm. -/
theorem make_projector_degenerate (sqrtF : ℚ → ℚ)
    (svdF : Mat → Mat × List ℚ) (projs : Option (List Proj))
    (ch_names bads : List String)
    (hch : ch_names ≠ [])
    (hdeg : projs = none ∨ ∃ l, projs = some l ∧
      ((∀ p ∈ l, p.active = false) ∨
       ((¬ 0 < sqrtF 0) ∧
        (∀ p ∈ l, p.active = true → hasDup p.data.col_names = false) ∧
        (∀ p ∈ l, p.active = true →
          ∀ col ∈ scatterCols p ch_names, colNormSq col = 0)))) :
    make_projector sqrtF svdF projs ch_names bads =
      .ok (eye ch_names.length, 0, []) := by
  have h0 : ¬ ch_names.length = 0 := by
    simpa [List.length_eq_zero] using hch
  rcases hdeg with rfl | ⟨l, rfl, hcase⟩
  · simp only [make_projector, if_neg h0]
  · rcases hcase with hidle | ⟨hz, hnodup, hzero⟩
    · have hf : (l.filter (fun p => p.active)).length = 0 := by
        rw [List.length_eq_zero]
        apply List.filter_eq_nil_iff.mpr
        intro p hp
        simp [hidle p hp]
      simp only [make_projector, if_neg h0, if_pos hf]
    · by_cases hf : (l.filter (fun p => p.active)).length = 0
      · simp only [make_projector, if_neg h0, if_pos hf]
      · obtain ⟨cols, hcols⟩ := buildVecsAux_all_zero sqrtF ch_names hz 0 l hnodup hzero
        simp only [make_projector, if_neg h0, if_neg hf, hcols]
        simp

/-- Witness for C2: an idle-only item list over one channel yields the
`1 × 1` identity with rank `0`. -/
theorem make_projector_degenerate_witness :
    make_projector idSqrt noSvd (some [idleItem]) ["A"] [] =
      .ok (eye 1, 0, []) :=
  make_projector_degenerate idSqrt noSvd (some [idleItem]) ["A"] []
    (by simp)
    (Or.inr ⟨[idleItem], rfl, Or.inl (by decide)⟩)

/-- Counterexample to C2 as stated: an active item whose channel names
repeat `B` and never meet the target set `["A"]` contributes only a
zero column, yet `make_projector` raises `DuplicateChannel` instead of
returning the identity — the duplicate check precedes the degenerate
zero-norm exit. -/
theorem make_projector_degenerate_cex :
    scatterCols dupZeroItem ["A"] = [[0]] ∧
    make_projector idSqrt noSvd (some [dupZeroItem]) ["A"] [] =
      .error (.duplicateChannel 0) := by
  constructor
  · decide
  · decide

/-- Helper: a successful `readItems` run means every produced item comes
from a successful `readItem` on some block, and every block read
successfully. -/
theorem readItems_ok_mem (g : Option Nat) :
    ∀ (l : List ProjItemBlock) (ps : List Proj),
      readItems g l = .ok ps →
      (∀ p ∈ ps, ∃ it ∈ l, readItem g it = .ok p) ∧
      (∀ it ∈ l, ∃ p, readItem g it = .ok p) := by
  intro l
  induction l with
  | nil =>
    intro ps h
    simp only [readItems] at h
    cases h
    exact ⟨by simp, by simp⟩
  | cons it its ih =>
    intro ps h
    simp only [readItems] at h
    cases hr : readItem g it with
    | error e => simp only [hr] at h; exact Except.noConfusion h
    | ok p =>
      simp only [hr] at h
      cases hrs : readItems g its with
      | error e => simp only [hrs] at h; exact Except.noConfusion h
      | ok qs =>
        simp only [hrs] at h
        cases h
        obtain ⟨ih1, ih2⟩ := ih qs hrs
        constructor
        · intro q hq
          rcases List.mem_cons.mp hq with rfl | hq2
          · exact ⟨it, List.mem_cons_self it its, hr⟩
          · obtain ⟨it2, hit2, h2⟩ := ih1 q hq2
            exact ⟨it2, List.mem_cons_of_mem _ hit2, h2⟩
        · intro it2 hit2
          rcases List.mem_cons.mp hit2 with rfl | h2
          · exact ⟨p, hr⟩
          · exact ih2 it2 h2

/-- Helper: inversion of a successful `readItem` — every required tag
was present (or supplied by its fallback), the shape validation passed,
and the produced record is assembled exactly from the resolved
payloads. -/
theorem readItem_ok_inv (g : Option Nat) (it : ProjItemBlock) (p : Proj)
    (h : readItem g it = .ok p) :
    ∃ nch d kd nv chl vecs,
      it.nchan.orElse (fun _ => g) = some nch ∧
      it.desc.orElse (fun _ => it.name) = some d ∧
      it.kind = some kd ∧ it.nvec = some nv ∧ it.ch_list = some chl ∧
      it.vectors = some vecs ∧
      matCols vecs = (splitColon chl).length ∧
      p = ⟨kd, it.active.isSome, d, ⟨nv, nch, none, splitColon chl, vecs⟩⟩ := by
  simp only [readItem] at h
  split at h
  · cases h
  rename_i nch hnch
  split at h
  · cases h
  rename_i d hd
  split at h
  · cases h
  rename_i kd hkd
  split at h
  · cases h
  rename_i nv hnv
  split at h
  · cases h
  rename_i chl hchl
  split at h
  · cases h
  rename_i vecs hvecs
  split at h
  · cases h
  rename_i hshape
  cases h
  exact ⟨nch, d, kd, nv, chl, vecs, hnch, hd, hkd, hnv, hchl, hvecs,
    (not_ne_iff.mp hshape), rfl⟩

/-- Helper: forward evaluation of `readItem` once every required tag
resolves — only the shape validation remains. -/
theorem readItem_eval (g : Option Nat) (it : ProjItemBlock)
    (nch : Nat) (d : String) (kd : Int) (nv : Nat) (chl : String) (vecs : Mat)
    (hnch : it.nchan.orElse (fun _ => g) = some nch)
    (hd : it.desc.orElse (fun _ => it.name) = some d)
    (hkd : it.kind = some kd) (hnv : it.nvec = some nv)
    (hchl : it.ch_list = some chl) (hvecs : it.vectors = some vecs) :
    readItem g it =
      if matCols vecs ≠ (splitColon chl).length then .error .shapeMismatch
      else .ok ⟨kd, it.active.isSome, d,
                ⟨nv, nch, none, splitColon chl, vecs⟩⟩ := by
  simp only [readItem, hnch, hd, hkd, hnv, hchl, hvecs]

/-- C6 (amended): every item a successful read returns has as many
channel names as its data matrix has columns (an item violating this is
rejected with `ShapeMismatch` once all its tags resolve); the recorded
`ncol` field, by contrast, comes from the channel-count tag and is not
validated against the name list (see the counterexample). -/
theorem read_proj_shape_invariant :
    (∀ (node : Option ProjBlock) (items : List Proj),
        read_proj node = .ok items →
        ∀ p ∈ items, p.data.col_names.length = matCols p.data.data) ∧
    (∀ (g : Option Nat) (it : ProjItemBlock) (nch : Nat) (d : String)
        (kd : Int) (nv : Nat) (chl : String) (vecs : Mat),
        it.nchan.orElse (fun _ => g) = some nch →
        it.desc.orElse (fun _ => it.name) = some d →
        it.kind = some kd → it.nvec = some nv → it.ch_list = some chl →
        it.vectors = some vecs →
        matCols vecs ≠ (splitColon chl).length →
        readItem g it = .error .shapeMismatch) := by
  constructor
  · intro node items h p hp
    cases node with
    | none =>
      simp only [read_proj] at h
      cases h
      simp at hp
    | some b =>
      simp only [read_proj] at h
      obtain ⟨h1, -⟩ := readItems_ok_mem b.nchan b.items items h
      obtain ⟨it, -, hit⟩ := h1 p hp
      obtain ⟨nch, d, kd, nv, chl, vecs, -, -, -, -, -, -, hshape, rfl⟩ :=
        readItem_ok_inv b.nchan it p hit
      exact hshape.symm
  · intro g it nch d kd nv chl vecs hnch hd hkd hnv hchl hvecs hne
    rw [readItem_eval g it nch d kd nv chl vecs hnch hd hkd hnv hchl hvecs,
      if_pos hne]

/-- Witness for C6: the item read from `namedItemBlock` has one channel
name and a one-column data row. -/
theorem read_proj_shape_invariant_witness :
    (⟨1, true, "from name", ⟨1, 1, none, ["a"], [[1]]⟩⟩ : Proj).data.col_names.length =
      matCols (⟨1, true, "from name", ⟨1, 1, none, ["a"], [[1]]⟩⟩ : Proj).data.data :=
  read_proj_shape_invariant.1 (some ⟨none, [namedItemBlock]⟩)
    [⟨1, true, "from name", ⟨1, 1, none, ["a"], [[1]]⟩⟩] (by decide)
    ⟨1, true, "from name", ⟨1, 1, none, ["a"], [[1]]⟩⟩ (by simp)

/-- Counterexample to C6 as stated: an item whose channel-count tag says
`5` over three channel names and a matching three-column data row is
read back without complaint, with `ncol = 5` different from the
channel-name count — the recorded column-count field is not part of the
validated invariant. -/
theorem read_proj_ncol_field_cex :
    read_proj (some nchanSkewBlock) =
      .ok [⟨1, false, "skew", ⟨1, 5, none, ["a", "b", "c"], [[1, 2, 3]]⟩⟩] ∧
    (5 : Nat) ≠ ["a", "b", "c"].length := by
  constructor
  · decide
  · decide

/-- C10: a projection block that contains an item sub-block while
neither that item nor the block carries a channel-count tag never reads
successfully — the channel-count fallback chain ends in a failure
(Python's `NameError` on the unassigned `global_nchan`), not in a
defaulted value. -/
theorem read_proj_missing_nchan (b : ProjBlock) (it : ProjItemBlock)
    (hb : b.nchan = none) (hmem : it ∈ b.items) (hit : it.nchan = none) :
    ∀ items, read_proj (some b) ≠ .ok items := by
  intro items hcontra
  simp only [read_proj, hb] at hcontra
  obtain ⟨-, h2⟩ := readItems_ok_mem none b.items items hcontra
  obtain ⟨p, hp⟩ := h2 it hmem
  simp [readItem, hit, Option.orElse] at hp

/-- Witness for C10: one item with no channel-count tag anywhere. -/
theorem read_proj_missing_nchan_witness :
    read_proj (some ⟨none, [noNchanItemBlock]⟩) ≠ .ok [] :=
  read_proj_missing_nchan ⟨none, [noNchanItemBlock]⟩ noNchanItemBlock rfl
    (List.mem_singleton.mpr rfl) rfl []

/-- Helper: reading back the blocks the writer emits — item by item,
each written item reads back with the same kind, description,
channel-name order and data, `ncol` and `nrow` carried over, and the
active flag forced to `true` by the presence-based test. -/
theorem readItems_write : ∀ (l : List Proj),
    (∀ p ∈ l, matCols p.data.data = p.data.col_names.length) →
    (∀ p ∈ l, splitColon (joinColon p.data.col_names) = p.data.col_names) →
    readItems none (l.map writeItem) =
      .ok (l.map (fun p => ⟨p.kind, true, p.desc,
        ⟨p.data.nrow, p.data.ncol, none, p.data.col_names, p.data.data⟩⟩))
  | [], _, _ => rfl
  | p :: ps, hval, hsplit => by
    have ihres := readItems_write ps
      (fun q hq => hval q (List.mem_cons_of_mem _ hq))
      (fun q hq => hsplit q (List.mem_cons_of_mem _ hq))
    have hsp := hsplit p (List.mem_cons_self p ps)
    have hvp := hval p (List.mem_cons_self p ps)
    have hre : readItem none (writeItem p) = .ok ⟨p.kind, true, p.desc,
        ⟨p.data.nrow, p.data.ncol, none, p.data.col_names, p.data.data⟩⟩ := by
      rw [readItem_eval none (writeItem p) p.data.ncol p.desc p.kind
        p.data.nrow (joinColon p.data.col_names) p.data.data
        (by simp [writeItem, Option.orElse]) (by simp [writeItem, Option.orElse])
        (by simp [writeItem]) (by simp [writeItem]) (by simp [writeItem])
        (by simp [writeItem]),
        if_neg (by rw [hsp, hvp]; exact not_ne_iff.mpr rfl)]
      simp [writeItem, hsp]
    simp only [List.map_cons, readItems, hre, ihres]

/-- C3 (amended): for any item list meeting the Reader's validation
rules (data columns matching the channel names, names surviving the
colon join/split), `read(write(X))` returns as many items as `X` has,
reproducing each item's kind, description, channel-name order, `nrow`,
`ncol` and data values exactly — but with `active = true`
unconditionally: the writer stores the active flag as an integer
payload while the reader only tests the tag's presence, so idle items
read back as active (see the counterexample). -/
theorem read_write_roundtrip (l : List Proj)
    (hval : ∀ p ∈ l, matCols p.data.data = p.data.col_names.length)
    (hsplit : ∀ p ∈ l, splitColon (joinColon p.data.col_names) = p.data.col_names) :
    read_proj (some (write_proj l)) =
      .ok (l.map (fun p => ⟨p.kind, true, p.desc,
        ⟨p.data.nrow, p.data.ncol, none, p.data.col_names, p.data.data⟩⟩)) := by
  simp only [read_proj, write_proj]
  exact readItems_write l hval hsplit

/-- Witness for C3: a single valid (field-kind, active) item
round-trips. -/
theorem read_write_roundtrip_witness :
    read_proj (some (write_proj [rtItem])) =
      .ok [⟨4, true, "field one", ⟨1, 2, none, ["A", "B"], [[1, 2]]⟩⟩] :=
  read_write_roundtrip [rtItem] (by decide) (by decide)

/-- Counterexample to C3 as stated: an idle item does not round-trip —
the writer always emits the active tag (with payload `0` here), the
reader only tests its presence, so the item reads back `active = true`
although `X` had `active = false`. -/
theorem read_write_active_flag_cex :
    idleItem.active = false ∧
    read_proj (some (write_proj [idleItem])) =
      .ok [⟨1, true, "idle one", ⟨1, 1, none, ["A"], [[1]]⟩⟩] := by
  constructor
  · rfl
  · decide

/-- C7 (amended): per channel group of `compute_spatial_vectors` —
a requested vector count of `0` yields no items, and a positive request
for a group with no channels is forced to `0` (the request value no
longer matters), pinned separately for each of the three groups
(gradiometer, magnetometer, EEG); a positive request `n` for a group with channels
yields `min n (number of economy-SVD basis columns)` items — which is
`n` itself exactly when the available rank is at least `n` — each
active, of kind `1`, with a single-row data matrix as long as the
group's channel list and that list as `col_names`, and a description
`"MEG k"` built from the per-group ordinal `k` alone (not from the
group's name; see the counterexample). -/
theorem compute_spatial_vectors_groups :
    (∀ (svdF : Mat → Mat × List ℚ) (dataF : Mat) (ind : List Nat)
        (names : List String), groupProjs svdF 0 dataF ind names = []) ∧
    (∀ (svdF : Mat → Mat × List ℚ) (epochsData : List Mat)
        (ch_names : List String) (mag_ind eeg_ind : List Nat)
        (n_grad n_mag n_eeg : Nat),
        compute_spatial_vectors svdF epochsData ch_names [] mag_ind eeg_ind
            n_grad n_mag n_eeg =
          compute_spatial_vectors svdF epochsData ch_names [] mag_ind eeg_ind
            0 n_mag n_eeg) ∧
    (∀ (svdF : Mat → Mat × List ℚ) (epochsData : List Mat)
        (ch_names : List String) (grad_ind eeg_ind : List Nat)
        (n_grad n_mag n_eeg : Nat),
        compute_spatial_vectors svdF epochsData ch_names grad_ind [] eeg_ind
            n_grad n_mag n_eeg =
          compute_spatial_vectors svdF epochsData ch_names grad_ind [] eeg_ind
            n_grad 0 n_eeg) ∧
    (∀ (svdF : Mat → Mat × List ℚ) (epochsData : List Mat)
        (ch_names : List String) (grad_ind mag_ind : List Nat)
        (n_grad n_mag n_eeg : Nat),
        compute_spatial_vectors svdF epochsData ch_names grad_ind mag_ind []
            n_grad n_mag n_eeg =
          compute_spatial_vectors svdF epochsData ch_names grad_ind mag_ind []
            n_grad n_mag 0) ∧
    (∀ (svdF : Mat → Mat × List ℚ) (n : Nat) (dataF : Mat) (ind : List Nat)
        (names : List String) (U : Mat) (S : List ℚ),
        0 < n → svdF (pickRows dataF ind) = (U, S) →
        isEconomySVD (pickRows dataF ind) U S →
        (groupProjs svdF n dataF ind names).length = min n U.length ∧
        (∀ (k : Nat) (p : Proj),
          (groupProjs svdF n dataF ind names)[k]? = some p →
          p.active = true ∧ p.kind = 1 ∧ p.desc = "MEG " ++ toString k ∧
          p.data.col_names = names ∧ p.data.nrow = 1 ∧
          ∃ u, p.data.data = [u] ∧ u.length = ind.length)) := by
  refine ⟨?_, ?_, ?_, ?_, ?_⟩
  · intro svdF dataF ind names
    rfl
  · intro svdF epochsData ch_names mag_ind eeg_ind n_grad n_mag n_eeg
    by_cases h : 0 < n_grad
    · simp [compute_spatial_vectors, groupProjs, h, Nat.pos_iff_ne_zero.mp h]
    · have h0 : n_grad = 0 := Nat.eq_zero_of_not_pos h
      rw [h0]
  · intro svdF epochsData ch_names grad_ind eeg_ind n_grad n_mag n_eeg
    by_cases h : 0 < n_mag
    · simp [compute_spatial_vectors, groupProjs, h, Nat.pos_iff_ne_zero.mp h]
    · have h0 : n_mag = 0 := Nat.eq_zero_of_not_pos h
      rw [h0]
  · intro svdF epochsData ch_names grad_ind mag_ind n_grad n_mag n_eeg
    by_cases h : 0 < n_eeg
    · simp [compute_spatial_vectors, groupProjs, h, Nat.pos_iff_ne_zero.mp h]
    · have h0 : n_eeg = 0 := Nat.eq_zero_of_not_pos h
      rw [h0]
  · intro svdF n dataF ind names U S hn hsvd hok
    have hne : ¬ n = 0 := Nat.pos_iff_ne_zero.mp hn
    constructor
    · simp only [groupProjs, if_neg hne, hsvd]
      simp [List.length_take]
    · intro k p hk
      simp only [groupProjs, if_neg hne, hsvd] at hk
      rw [List.getElem?_map, List.getElem?_enum] at hk
      cases hku : (U.take n)[k]? with
      | none => rw [hku] at hk; cases hk
      | some u =>
        rw [hku] at hk
        simp only [Option.map_some'] at hk
        cases hk
        have hmem : u ∈ U := List.mem_of_mem_take (List.getElem?_mem hku)
        have hulen : u.length = (pickRows dataF ind).length :=
          hok.2.2.1 u hmem
        have hilen : (pickRows dataF ind).length = ind.length := by
          simp [pickRows]
        exact ⟨rfl, rfl, rfl, rfl, rfl, u, rfl, hulen.trans hilen⟩

/-- Witness for C7: requesting one vector from the one-channel group
`[0]` with channel name `E1` yields exactly `min 1 1 = 1` item. -/
theorem compute_spatial_vectors_groups_witness :
    (groupProjs svdOne 1 (flattenEpochs [[[1]]]) [0] ["E1"]).length =
      min 1 1 :=
  (compute_spatial_vectors_groups.2.2.2.2 svdOne 1 (flattenEpochs [[[1]]]) [0]
    ["E1"] [[1]] [1] (by decide) (by decide)
    (by
      refine ⟨by decide, by decide, by decide, ?_, by simp, ?_⟩
      · intro i hi j hj
        have hi0 : i = 0 := by simpa [List.mem_range, Nat.lt_one_iff] using hi
        have hj0 : j = 0 := by simpa [List.mem_range, Nat.lt_one_iff] using hj
        subst hi0
        subst hj0
        norm_num
      · intro s hs
        rw [List.mem_singleton.mp hs]
        norm_num)).1

/-- Counterexample to C7 as stated: a one-channel, one-sample EEG group
(`svdOne` is its genuine economy SVD, as `isEconomySVD` certifies) with
a request of `2` vectors yields one item, not two, and that item's
description is `"MEG 0"` — it does not carry the group's name. -/
theorem compute_spatial_vectors_rank_cex :
    isEconomySVD (pickRows (flattenEpochs [[[1]]]) [0]) [[1]] [1] ∧
    compute_spatial_vectors svdOne [[[1]]] ["E1"] [] [] [0] 0 0 2 =
      [⟨1, true, "MEG 0", ⟨1, 1, none, ["E1"], [[1]]⟩⟩] := by
  constructor
  · refine ⟨by decide, by decide, by decide, ?_, by simp, ?_⟩
    · intro i hi j hj
      have hi0 : i = 0 := by simpa [List.mem_range, Nat.lt_one_iff] using hi
      have hj0 : j = 0 := by simpa [List.mem_range, Nat.lt_one_iff] using hj
      subst hi0
      subst hj0
      norm_num
    · intro s hs
      rw [List.mem_singleton.mp hs]
      norm_num
  · decide

end MneProj
